import Mathlib

/-!
Verification of the LLM service subsystem of the Prompt-Assistant repository.

The development shallowly embeds the TypeScript sources as Lean functions:

* JavaScript string primitives (indexOf, substring, trim, includes) are
  modelled on lists of characters with the same clamping rules.
* `ThoughtExtractor` (services/llm/extractors/base/thoughtExtractor.ts) is
  translated method by method; the try/catch in `extract` is modelled with
  an `Except` valued body together with a catch wrapper.
* The gateway (`LLMService`), `Validator` and the provider adapters
  (openai.ts, gemini.ts, anthropic.ts) are translated with explicit
  result values, callback-event traces and counters for constructed
  providers and outbound network calls.
-/

namespace PromptAssistant

instance {ε α : Type} [DecidableEq ε] [DecidableEq α] : DecidableEq (Except ε α) :=
  fun a b =>
    match a, b with
    | .error x, .error y => decidable_of_iff (x = y) (by simp)
    | .ok x, .ok y => decidable_of_iff (x = y) (by simp)
    | .error _, .ok _ => isFalse (fun h => Except.noConfusion h)
    | .ok _, .error _ => isFalse (fun h => Except.noConfusion h)

/-- Character list standing for a JavaScript string. -/
abbrev Str := List Char

/-- Whitespace recognised by the model of `String.prototype.trim`. -/
def jsWhitespace (c : Char) : Bool :=
  c == ' ' || c == '\t' || c == '\n' || c == '\r'

/-- Model of `text.trim()`: strip whitespace from both ends. -/
def jsTrim (s : Str) : Str :=
  ((s.dropWhile jsWhitespace).reverse.dropWhile jsWhitespace).reverse

/-- First offset at or after the cursor where `pat` occurs in `rest`;
`i` is the number of characters already consumed. -/
def firstMatchAux (pat : Str) : Str → Nat → Option Nat
  | rest, i =>
    if pat.isPrefixOf rest then some i
    else
      match rest with
      | [] => none
      | _ :: t => firstMatchAux pat t (i + 1)

/-- Model of `s.indexOf(pat, pos)`: the search position is clamped to
`[0, s.length]` and the result is `-1` when there is no occurrence. -/
def jsIndexOf (s pat : Str) (pos : Int) : Int :=
  let start : Nat := pos.toNat.min s.length
  match firstMatchAux pat (s.drop start) 0 with
  | some j => ((start + j : Nat) : Int)
  | none => -1

/-- Model of `s.includes(pat)`. -/
def jsIncludes (s pat : Str) : Bool :=
  jsIndexOf s pat 0 != -1

/-- Model of `s.substring(a, b)`: both indices are clamped to
`[0, s.length]` and swapped when out of order. -/
def jsSubstring (s : Str) (a b : Int) : Str :=
  let n := s.length
  let a' := a.toNat.min n
  let b' := b.toNat.min n
  (s.drop (a'.min b')).take (a'.max b' - a'.min b')

/-- Model of the one-argument `s.substring(a)`. -/
def jsSubstringFrom (s : Str) (a : Int) : Str :=
  jsSubstring s a s.length

/-- Characters of a Lean string literal, used to write concrete inputs. -/
def s2l (s : String) : Str := s.data

/-! ### ThoughtExtractor (extractors/base/thoughtExtractor.ts) -/

/-- `thinkStartMarkers` field of `ThoughtExtractor`. -/
def thinkStartMarkers : List Str :=
  [s2l "<think>", s2l "```thinking", s2l "```thought", s2l "```reasoning",
   s2l "Thinking:", s2l "思考过程:"]

/-- `thinkEndMarkers` field of `ThoughtExtractor`. -/
def thinkEndMarkers : List Str :=
  [s2l "</think>", s2l "```", s2l "\n\n"]

/-- `answerMarkers` field of `ThoughtExtractor`. -/
def answerMarkers : List Str :=
  [s2l "最终答案:", s2l "最终回答:", s2l "Answer:", s2l "回答:"]

/-- Result record returned by the extractor. -/
structure ThoughtExtractionResult where
  thinking : Option Str
  answer : Option Str
deriving DecidableEq, Repr

/-- Marker pair returned by `detectMarkers`. -/
structure Markers where
  startMarker : Option Str
  endMarker : Option Str
deriving DecidableEq, Repr

/-- `ThoughtExtractor.findFirstMarker`: first listed marker contained in
the text. -/
def findFirstMarker (text : Str) : List Str → Option Str
  | [] => none
  | m :: rest => if jsIncludes text m then some m else findFirstMarker text rest

/-- `ThoughtExtractor.findFirstMarkerAfter`: first listed marker occurring
at or after `startIndex`. -/
def findFirstMarkerAfter (text : Str) (startIndex : Int) : List Str → Option Str
  | [] => none
  | m :: rest =>
    if jsIndexOf text m startIndex != -1 then some m
    else findFirstMarkerAfter text startIndex rest

/-- `ThoughtExtractor.detectMarkers`. -/
def detectMarkers (text : Str) : Markers :=
  let startMarker := findFirstMarker text thinkStartMarkers
  let endMarker :=
    match startMarker with
    | some sm =>
      let startIndex := jsIndexOf text sm 0 + (sm.length : Int)
      findFirstMarkerAfter text startIndex thinkEndMarkers
    | none => findFirstMarker text thinkEndMarkers
  ⟨startMarker, endMarker⟩

/-- Loop body of `ThoughtExtractor.findAnswerStartIndex`. -/
def findAnswerStartIndexAux (text : Str) (defaultStartIndex : Int) : List Str → Int
  | [] => defaultStartIndex
  | marker :: rest =>
    let markerIndex := jsIndexOf text marker defaultStartIndex
    if markerIndex ≠ -1 ∧ markerIndex < defaultStartIndex + 100 then
      markerIndex + (marker.length : Int)
    else findAnswerStartIndexAux text defaultStartIndex rest

/-- `ThoughtExtractor.findAnswerStartIndex`. -/
def findAnswerStartIndex (text : Str) (defaultStartIndex : Int) : Int :=
  findAnswerStartIndexAux text defaultStartIndex answerMarkers

/-- `ThoughtExtractor.extractThinkingAndAnswer`. -/
def extractThinkingAndAnswer (text : Str) : ThoughtExtractionResult :=
  let m := detectMarkers text
  match m.startMarker, m.endMarker with
  | some startMarker, some endMarker =>
    let startIndex : Int := jsIndexOf text startMarker 0 + (startMarker.length : Int)
    let endMarkIndex : Int := jsIndexOf text endMarker startIndex
    if endMarkIndex = -1 then
      ⟨some (jsTrim (jsSubstringFrom text startIndex)), none⟩
    else
      let thinking := jsTrim (jsSubstring text startIndex endMarkIndex)
      let answerStartIndex := findAnswerStartIndex text (endMarkIndex + (endMarker.length : Int))
      let answerText := jsTrim (jsSubstringFrom text answerStartIndex)
      ⟨some thinking, if answerText = [] then none else some answerText⟩
  | _, _ => ⟨none, some text⟩

/-- Body of the `try` block of `ThoughtExtractor.extract`; an `Except`
value models a possible JavaScript exception escaping the block. -/
def extractBody (text : Str) : Except String ThoughtExtractionResult :=
  let m := detectMarkers text
  match m.startMarker, m.endMarker with
  | none, none => .ok ⟨none, some text⟩
  | none, some _ =>
    let processedText := thinkStartMarkers.headD [] ++ text
    match (detectMarkers processedText).startMarker with
    | none => .ok ⟨none, some text⟩
    | some _ => .ok (extractThinkingAndAnswer processedText)
  | some _, _ => .ok (extractThinkingAndAnswer text)

/-- `ThoughtExtractor.extract`: blank input short-circuits, the scan body
runs inside try/catch, and the catch degrades to the whole input. -/
def extract (text : Str) : ThoughtExtractionResult :=
  if text = [] ∨ jsTrim text = [] then ⟨none, none⟩
  else
    match extractBody text with
    | .ok r => r
    | .error _ => ⟨none, some text⟩

/-! ### Error taxonomy (services/llm/errors.ts)

`requestConfigError` and `apiError` are the typed error classes; `jsError`
stands for any other JavaScript `Error` escaping a vendor SDK call. -/

inductive JsError where
  | requestConfigError (msg : String)
  | apiError (msg : String)
  | jsError (msg : String)
deriving DecidableEq, Repr

/-- `ERROR_MESSAGES.API_KEY_REQUIRED`. -/
def API_KEY_REQUIRED : String := "API密钥不能为空"

/-! ### Data model (services/model/types.ts, services/llm/types.ts)

Optional string fields of the TypeScript interfaces are modelled as plain
strings where the empty string stands for an absent or empty value, which
is exactly what the falsy tests of the sources observe. -/

structure ModelConfig where
  name : String
  baseURL : String
  apiKey : String
  models : List String
  defaultModel : String
  enabled : Bool
  provider : String
  useVercelProxy : Bool
deriving DecidableEq, Repr

structure Message where
  role : String
  content : String
deriving DecidableEq, Repr

structure ModelInfo where
  id : String
  name : String
deriving DecidableEq, Repr

structure ModelOption where
  value : String
  label : String
deriving DecidableEq, Repr

/-- One entry of the vendor model-listing response (`response.data`). -/
structure RawModel where
  id : String
deriving DecidableEq, Repr

/-- `Partial<ModelConfig>` of the custom-configuration parameter. -/
structure PartialModelConfig where
  name? : Option String := none
  baseURL? : Option String := none
  apiKey? : Option String := none
  models? : Option (List String) := none
  defaultModel? : Option String := none
  enabled? : Option Bool := none
  provider? : Option String := none
  useVercelProxy? : Option Bool := none
deriving DecidableEq, Repr

/-- Object-spread merge of a base configuration with a partial one. -/
def mergeConfig (base : ModelConfig) (p : PartialModelConfig) : ModelConfig where
  name := p.name?.getD base.name
  baseURL := p.baseURL?.getD base.baseURL
  apiKey := p.apiKey?.getD base.apiKey
  models := p.models?.getD base.models
  defaultModel := p.defaultModel?.getD base.defaultModel
  enabled := p.enabled?.getD base.enabled
  provider := p.provider?.getD base.provider
  useVercelProxy := p.useVercelProxy?.getD base.useVercelProxy

/-- Spreading a partial configuration over a missing base configuration:
every absent field reads as the falsy default. -/
def undefinedModelConfig : ModelConfig :=
  ⟨"", "", "", [], "", false, "", false⟩

/-- Model of `String.prototype.toLowerCase` on the ASCII vendor names
used by the factory and the adapters. -/
def jsToLower (s : String) : String := ⟨s.data.map Char.toLower⟩

/-! ### Validator (services/llm/validator.ts) -/

/-- Per-message checks of the `forEach` body of `Validator.validateMessages`. -/
def validateMessage (msg : Message) : Except JsError Unit :=
  if msg.role = "" ∨ msg.content = "" then
    .error (.requestConfigError "消息格式无效: 缺少必要字段")
  else if ¬ (msg.role = "system" ∨ msg.role = "user" ∨ msg.role = "assistant") then
    .error (.requestConfigError ("不支持的消息类型: " ++ msg.role))
  else .ok ()

/-- First failing message check, in list order. -/
def validateMessagesAux : List Message → Except JsError Unit
  | [] => .ok ()
  | msg :: rest =>
    match validateMessage msg with
    | .error e => .error e
    | .ok _ => validateMessagesAux rest

/-- `Validator.validateMessages`. -/
def validateMessages (messages : List Message) : Except JsError Unit :=
  if messages = [] then .error (.requestConfigError "消息列表不能为空")
  else validateMessagesAux messages

/-- `Validator.validateModelConfig`; the `Option` argument carries the
possibility of a missing configuration object. -/
def validateModelConfig (modelConfig : Option ModelConfig) : Except JsError Unit :=
  match modelConfig with
  | none => .error (.requestConfigError "模型配置不能为空")
  | some cfg =>
    if cfg.provider = "" then .error (.requestConfigError "模型提供商不能为空")
    else if cfg.apiKey = "" then .error (.requestConfigError API_KEY_REQUIRED)
    else if cfg.defaultModel = "" then .error (.requestConfigError "默认模型不能为空")
    else if ¬ cfg.enabled then .error (.requestConfigError "模型未启用")
    else .ok ()

/-! ### Gateway (services/llm/service.ts) -/

/-- Configuration resolution step of `LLMService.getValidatedModelConfig`:
the store lookup optionally overridden by the spread-merged custom
configuration; `none` exactly when both sources are absent. -/
def resolveModelConfig (mm : String → Option ModelConfig) (provider : String)
    (customConfig : Option PartialModelConfig) : Option ModelConfig :=
  match customConfig with
  | some c => some (mergeConfig ((mm provider).getD undefinedModelConfig) c)
  | none => mm provider

/-- `LLMService.getValidatedModelConfig`; `mm` is the model manager read
function and `customConfig` the optional override. -/
def getValidatedModelConfig (mm : String → Option ModelConfig) (provider : String)
    (customConfig : Option PartialModelConfig) (validateFull : Bool) :
    Except JsError ModelConfig :=
  if provider = "" then .error (.requestConfigError "模型提供商不能为空")
  else
    match resolveModelConfig mm provider customConfig with
    | none => .error (.requestConfigError ("模型 " ++ provider ++ " 不存在"))
    | some modelConfig =>
      if validateFull then
        match validateModelConfig (some modelConfig) with
        | .error e => .error e
        | .ok _ => .ok modelConfig
      else
        if modelConfig.baseURL = "" then .error (.requestConfigError "API URL不能为空")
        else if modelConfig.apiKey = "" then .error (.requestConfigError API_KEY_REQUIRED)
        else .ok modelConfig

/-- Rewrapping performed by `executeWithErrorHandling`: typed errors pass
through, anything else becomes an `APIError` naming the operation. -/
def wrapOperationError (operationName : String) (e : JsError) : JsError :=
  match e with
  | .requestConfigError m => .requestConfigError m
  | .apiError m => .apiError m
  | .jsError m => .apiError (operationName ++ "失败: " ++ m)

/-- Outcome of a gateway call together with the number of provider
adapters constructed and of outbound vendor calls performed. -/
structure SendOutcome where
  result : Except JsError String
  providersCreated : Nat
  networkCalls : Nat
deriving DecidableEq, Repr

/-- `LLMService.sendMessage`; `vendorSend` stands for the wire exchange
performed by the adapter constructed on the success path. -/
def sendMessage (mm : String → Option ModelConfig) (messages : List Message)
    (provider : String) (vendorSend : List Message → Except String String) :
    SendOutcome :=
  match validateMessages messages with
  | .error e => ⟨.error (wrapOperationError "发送消息" e), 0, 0⟩
  | .ok _ =>
    match getValidatedModelConfig mm provider none true with
    | .error e => ⟨.error (wrapOperationError "发送消息" e), 0, 0⟩
    | .ok _modelConfig =>
      match vendorSend messages with
      | .ok response => ⟨.ok response, 1, 1⟩
      | .error e => ⟨.error (wrapOperationError "发送消息" (.jsError e)), 1, 1⟩

/-! ### Streaming (service.ts, providers/openai.ts, providers/gemini.ts) -/

/-- One callback invocation observed by the `StreamHandlers` consumer. -/
inductive CbEvent where
  | token (s : String)
  | complete
  | error (e : JsError)
deriving DecidableEq, Repr

/-- Behaviour of the vendor stream: the delta contents it yields and, when
set, the error it throws after them. -/
structure VendorStream where
  chunks : List String
  failure : Option String
deriving DecidableEq, Repr

/-- Number of `onError` invocations in an event trace. -/
def countErrorEvents (evts : List CbEvent) : Nat :=
  (evts.filter (fun ev => match ev with | .error _ => true | _ => false)).length

/-- `OpenAIProvider.sendMessageStream`: empty deltas are skipped, a clean
stream ends with `onComplete`, and the catch block reports the failure to
`onError` without rethrowing it. -/
def openaiStream (_messages : List Message) (vs : VendorStream) :
    List CbEvent × Except JsError Unit :=
  let tokens := (vs.chunks.filter (fun c => c ≠ "")).map CbEvent.token
  match vs.failure with
  | none => (tokens ++ [.complete], .ok ())
  | some e => (tokens ++ [.error (.jsError e)], .ok ())

/-- The `lastUserMessage` value computed by `GeminiProvider`. -/
def geminiLastUserMessage (messages : List Message) : String :=
  let conv := messages.filter (fun m => m.role ≠ "system")
  match conv.getLast? with
  | some m => if m.role = "user" then m.content else ""
  | none => ""

/-- `GeminiProvider.sendMessageStream`: without a final user message the
stream completes immediately; a stream failure is reported to `onError`
and rethrown. -/
def geminiStream (messages : List Message) (vs : VendorStream) :
    List CbEvent × Except JsError Unit :=
  if geminiLastUserMessage messages = "" then ([.complete], .ok ())
  else
    let tokens := (vs.chunks.filter (fun c => c ≠ "")).map CbEvent.token
    match vs.failure with
    | none => (tokens ++ [.complete], .ok ())
    | some e => (tokens ++ [.error (.jsError e)], .error (.jsError e))

/-- `LLMService.sendMessageStream`: validation runs first, then the
adapter; the service catch forwards any escaped error to `onError` once
more and rethrows it. -/
def sendMessageStream (mm : String → Option ModelConfig) (messages : List Message)
    (provider : String)
    (adapter : List Message → VendorStream → List CbEvent × Except JsError Unit)
    (vs : VendorStream) : List CbEvent × Except JsError Unit :=
  match validateMessages messages with
  | .error e => ([.error e], .error e)
  | .ok _ =>
    match getValidatedModelConfig mm provider none true with
    | .error e => ([.error e], .error e)
    | .ok _modelConfig =>
      let (evts, r) := adapter messages vs
      match r with
      | .ok _ => (evts, .ok ())
      | .error e => (evts ++ [.error e], .error e)

/-! ### Model listing (providers/openai.ts, providers/anthropic.ts,
service.ts) -/

/-- Built-in catalog returned for the DeepSeek vendor. -/
def deepseekBuiltinModels : List ModelInfo :=
  [⟨"deepseek-chat", "DeepSeek Chat"⟩, ⟨"deepseek-coder", "DeepSeek Coder"⟩,
   ⟨"deepseek-reasoner", "DeepSeek Reasoner"⟩]

/-- Fallback catalog returned when the vendor listing request fails. -/
def openaiDefaultModels : List ModelInfo :=
  [⟨"gpt-4o", "GPT-4o"⟩, ⟨"gpt-4-turbo", "GPT-4 Turbo"⟩,
   ⟨"gpt-3.5-turbo", "GPT-3.5 Turbo"⟩]

/-- Model of `model.id.includes(pat)` on Lean strings. -/
def strIncludes (s pat : String) : Bool := jsIncludes s.data pat.data

/-- `OpenAIProvider.fetchModels`; `vendorList` is the outcome of the
vendor request and the second component counts outbound calls. -/
def openaiFetchModels (cfg : ModelConfig) (vendorList : Except String (List RawModel)) :
    Except JsError (List ModelInfo) × Nat :=
  if jsToLower cfg.provider = "deepseek" then (.ok deepseekBuiltinModels, 0)
  else
    match vendorList with
    | .ok data =>
      (.ok ((data.filter (fun m => strIncludes m.id "gpt")).map (fun m => ⟨m.id, m.id⟩)), 1)
    | .error _ => (.ok openaiDefaultModels, 1)

/-- Hard-coded catalog of `AnthropicProvider.fetchModels`. -/
def anthropicModels : List ModelInfo :=
  [⟨"claude-3-opus-20240229", "Claude 3 Opus"⟩,
   ⟨"claude-3-sonnet-20240229", "Claude 3 Sonnet"⟩,
   ⟨"claude-3-haiku-20240307", "Claude 3 Haiku"⟩,
   ⟨"claude-2.1", "Claude 2.1"⟩]

/-- `AnthropicProvider.fetchModels`: the vendor call outcome is never
consulted and no request is made. -/
def anthropicFetchModels (_vendorList : Except String (List RawModel)) :
    Except JsError (List ModelInfo) × Nat :=
  (.ok anthropicModels, 0)

/-- `LLMService.fetchModelList`; `providerFetch` is the `fetchModels`
method of the adapter selected by the factory. -/
def fetchModelList (mm : String → Option ModelConfig) (provider : String)
    (customConfig : Option PartialModelConfig)
    (providerFetch : ModelConfig → Except JsError (List ModelInfo) × Nat) :
    Except JsError (List ModelOption) × Nat :=
  match getValidatedModelConfig mm provider customConfig false with
  | .error e => (.error (wrapOperationError "获取模型列表" e), 0)
  | .ok modelConfig =>
    let (r, n) := providerFetch modelConfig
    match r with
    | .ok models => (.ok (models.map (fun m => ⟨m.id, m.name⟩)), n)
    | .error e => (.error (wrapOperationError "获取模型列表" e), n)

/-- Recogniser for the configuration-error class. -/
def isRequestConfigError : JsError → Bool
  | .requestConfigError _ => true
  | _ => false

/-- Fully populated valid configuration used in concrete scenarios. -/
def cfgDemo : ModelConfig :=
  ⟨"Test", "https://api.test/v1", "sk-1", ["gpt-4"], "gpt-4", true, "openai", false⟩

/-- Configuration whose credential is empty, used in concrete scenarios. -/
def cfgNoKeyDemo : ModelConfig :=
  ⟨"Test", "https://api.test/v1", "", ["gpt-4"], "gpt-4", true, "openai", false⟩

/-- Model manager resolving every key to `cfgDemo`. -/
def mmDemo : String → Option ModelConfig := fun _ => some cfgDemo

/-- One-element well-formed message list. -/
def msgsDemo : List Message := [⟨"user", "hi"⟩]

/-- Vendor stream yielding one fragment and then failing. -/
def vsDemo : VendorStream := ⟨["partial"], some "boom"⟩

/-! ## Theorems -/

/-- C7: on the concrete reasoning transcript the extractor recovers the
text between the think tags as `thinking` and the trailing sentence as
`answer`. -/
theorem extract_think_tag_concrete :
    extract (s2l "<think>because 9.11 < 9.9 numerically when compared as decimals</think>9.8 is larger.") =
      ⟨some (s2l "because 9.11 < 9.9 numerically when compared as decimals"),
       some (s2l "9.8 is larger.")⟩ := by
  decide

/-- C1: evaluation at the failing input. The text has the opening marker
and no closing marker after it, yet `extract` reports no thinking and
returns the whole input (marker included) as the answer, because the
guard at the top of `extractThinkingAndAnswer` returns before the
unclosed-marker branch can run. -/
theorem extract_unclosed_marker_eval :
    detectMarkers (s2l "<think>abc") = ⟨some (s2l "<think>"), none⟩ ∧
    extract (s2l "<think>abc") = ⟨none, some (s2l "<think>abc")⟩ ∧
    (extract (s2l "<think>abc")).thinking = none := by
  decide

/-- C4 counterexample: a configuration whose base URL alone is missing
passes full validation instead of being rejected. -/
theorem validateModelConfig_missing_baseURL_cex :
    (⟨"Custom", "", "sk-1", ["gpt-4"], "gpt-4", true, "openai", false⟩ : ModelConfig).baseURL = "" ∧
    validateModelConfig (some ⟨"Custom", "", "sk-1", ["gpt-4"], "gpt-4", true, "openai", false⟩) = .ok () := by
  decide

/-- C4 amended: full validation accepts a configuration exactly when the
vendor, the credential and the default model are present and the
configuration is enabled; the base URL is not examined. -/
theorem validateModelConfig_ok_iff (cfg : ModelConfig) :
    validateModelConfig (some cfg) = .ok () ↔
      cfg.provider ≠ "" ∧ cfg.apiKey ≠ "" ∧ cfg.defaultModel ≠ "" ∧ cfg.enabled = true := by
  unfold validateModelConfig
  dsimp only
  split_ifs with h1 h2 h3 h4 <;> simp_all

/-- C5 counterexample: the empty input contains no marker, yet `extract`
returns an absent answer instead of the original (empty) input. -/
theorem extract_empty_input_cex :
    (∀ m ∈ thinkStartMarkers, jsIncludes (s2l "") m = false) ∧
    (∀ m ∈ thinkEndMarkers, jsIncludes (s2l "") m = false) ∧
    extract (s2l "") = ⟨none, none⟩ ∧
    (extract (s2l "")).answer ≠ some (s2l "") := by
  decide

/-- C6: the scanning body of `extract` never signals an exception, so the
surrounding catch clause is never needed and every input yields a result
object. -/
theorem extractBody_never_throws : ∀ t : Str, (extractBody t).isOk = true := by
  intro t
  unfold extractBody
  cases hs : (detectMarkers t).startMarker with
  | some sm => simp [hs, Except.isOk, Except.toBool]
  | none =>
    cases he : (detectMarkers t).endMarker with
    | none => simp [hs, he, Except.isOk, Except.toBool]
    | some em =>
      simp only [hs, he]
      cases h2 : (detectMarkers (thinkStartMarkers.headD [] ++ t)).startMarker <;>
        simp [h2, Except.isOk, Except.toBool]

/-- C9: the catalog of the Anthropic adapter is a fixed four-entry list and
the method performs no network call whatever the vendor endpoint would
have answered. -/
theorem anthropicFetchModels_fixed_catalog :
    ∀ vendorList, anthropicFetchModels vendorList = (.ok anthropicModels, 0) ∧
      anthropicModels.length = 4 ∧ anthropicModels ≠ [] :=
  fun _ => ⟨rfl, rfl, by decide⟩

/-- Token events are not error events. -/
theorem countErrorEvents_token_map (l : List String) :
    countErrorEvents (l.map CbEvent.token) = 0 := by
  induction l with
  | nil => rfl
  | cons a tl _ih => simp [countErrorEvents, List.filter_cons]

/-- Error counting distributes over concatenation. -/
theorem countErrorEvents_append (a b : List CbEvent) :
    countErrorEvents (a ++ b) = countErrorEvents a + countErrorEvents b := by
  simp [countErrorEvents, List.filter_append]

/-- C2 counterexample: a failing OpenAI-compatible stream reaches the
caller as a single `onError` invocation while the awaited promise still
resolves, so the error is not rethrown. -/
theorem sendMessageStream_openai_not_rethrown_cex :
    sendMessageStream mmDemo msgsDemo "openai" openaiStream vsDemo =
      ([CbEvent.token "partial", CbEvent.error (.jsError "boom")], .ok ()) ∧
    countErrorEvents [CbEvent.token "partial", CbEvent.error (.jsError "boom")] = 1 := by
  decide

/-- C2 amended: when the vendor stream fails, the OpenAI-compatible
adapter reports the error to `onError` exactly once and swallows it (the
awaited promise resolves), while the Gemini adapter rethrows it to the
awaiting caller but `onError` fires twice, once in the adapter and once
in the gateway catch block. -/
theorem sendMessageStream_vendor_failure (mm : String → Option ModelConfig)
    (messages : List Message) (provider : String) (vs : VendorStream)
    (e : String) (cfg : ModelConfig)
    (hmsg : validateMessages messages = .ok ())
    (hcfg : getValidatedModelConfig mm provider none true = .ok cfg)
    (hfail : vs.failure = some e) :
    (countErrorEvents (sendMessageStream mm messages provider openaiStream vs).1 = 1 ∧
      (sendMessageStream mm messages provider openaiStream vs).2 = .ok ()) ∧
    (geminiLastUserMessage messages ≠ "" →
      countErrorEvents (sendMessageStream mm messages provider geminiStream vs).1 = 2 ∧
      (sendMessageStream mm messages provider geminiStream vs).2 = .error (.jsError e)) := by
  have hopen : openaiStream messages vs =
      ((vs.chunks.filter (fun c => c ≠ "")).map CbEvent.token ++ [.error (.jsError e)], .ok ()) := by
    unfold openaiStream; rw [hfail]
  constructor
  · unfold sendMessageStream
    rw [hmsg, hcfg, hopen]
    refine ⟨?_, rfl⟩
    show countErrorEvents (_ ++ [CbEvent.error (.jsError e)]) = 1
    rw [countErrorEvents_append, countErrorEvents_token_map]
    rfl
  · intro hu
    have hgem : geminiStream messages vs =
        ((vs.chunks.filter (fun c => c ≠ "")).map CbEvent.token ++ [.error (.jsError e)],
          .error (.jsError e)) := by
      unfold geminiStream; rw [if_neg hu, hfail]
    unfold sendMessageStream
    rw [hmsg, hcfg, hgem]
    refine ⟨?_, rfl⟩
    show countErrorEvents ((_ ++ [CbEvent.error (.jsError e)]) ++ [CbEvent.error (.jsError e)]) = 2
    rw [countErrorEvents_append, countErrorEvents_append, countErrorEvents_token_map]
    rfl

/-- C2 amended, witness: the amended statement instantiated on a concrete
failing Gemini stream. -/
theorem sendMessageStream_vendor_failure_witness :
    countErrorEvents (sendMessageStream mmDemo msgsDemo "openai" geminiStream vsDemo).1 = 2 ∧
    (sendMessageStream mmDemo msgsDemo "openai" geminiStream vsDemo).2 = .error (.jsError "boom") :=
  (sendMessageStream_vendor_failure mmDemo msgsDemo "openai" vsDemo "boom" cfgDemo
    (by decide) (by decide) rfl).2 (by decide)

/-- C3 counterexample: a failed vendor listing yields the fixed default
catalog, which is not the empty list the specification promises. -/
theorem openaiFetchModels_failure_cex :
    (openaiFetchModels cfgDemo (.error "network failure")).1 = .ok openaiDefaultModels ∧
    openaiDefaultModels ≠ [] ∧
    (openaiFetchModels cfgDemo (.error "network failure")).1 ≠ .ok [] := by
  decide

/-- C3 amended: when the vendor listing request fails, the adapter
swallows the failure and returns the fixed non-empty default catalog, and
the gateway hands that catalog (not an empty list, not an error) to the
caller. -/
theorem fetchModels_failure_default_list (cfg : ModelConfig) (e : String)
    (h : jsToLower cfg.provider ≠ "deepseek") :
    openaiFetchModels cfg (.error e) = (.ok openaiDefaultModels, 1) ∧
    openaiDefaultModels ≠ [] ∧
    ∀ mm provider customConfig,
      getValidatedModelConfig mm provider customConfig false = .ok cfg →
      (fetchModelList mm provider customConfig (fun c => openaiFetchModels c (.error e))).1 =
        .ok (openaiDefaultModels.map fun m => ModelOption.mk m.id m.name) := by
  have h1 : openaiFetchModels cfg (.error e) = (.ok openaiDefaultModels, 1) := by
    unfold openaiFetchModels; rw [if_neg h]
  refine ⟨h1, by decide, ?_⟩
  intro mm provider customConfig hg
  unfold fetchModelList
  rw [hg]
  dsimp only
  rw [h1]

/-- C3 amended, witness: the amended statement instantiated on a concrete
failing vendor request. -/
theorem fetchModels_failure_default_list_witness :
    (fetchModelList mmDemo "openai" none (fun c => openaiFetchModels c (.error "down"))).1 =
      .ok (openaiDefaultModels.map fun m => ModelOption.mk m.id m.name) :=
  (fetchModels_failure_default_list cfgDemo "down" (by decide)).2.2 mmDemo "openai" none (by decide)

/-- The error class is apparent from the shape of an error result. -/
theorem isRequestConfigError_exists {e : JsError} (h : isRequestConfigError e = true) :
    ∃ m, e = .requestConfigError m := by
  cases e <;> simp_all [isRequestConfigError]

/-- Every failure of the per-message check is a configuration error. -/
theorem validateMessage_error_rce (msg : Message) {e : JsError}
    (h : validateMessage msg = .error e) : isRequestConfigError e = true := by
  unfold validateMessage at h
  split_ifs at h <;> cases h <;> rfl

/-- Every failure of the message-list loop is a configuration error. -/
theorem validateMessagesAux_error_rce :
    ∀ (ms : List Message) {e : JsError}, validateMessagesAux ms = .error e →
      isRequestConfigError e = true := by
  intro ms
  induction ms with
  | nil => intro e h; exact Except.noConfusion h
  | cons m tl ih =>
    intro e h
    unfold validateMessagesAux at h
    cases hv : validateMessage m with
    | error e2 =>
      rw [hv] at h
      cases h
      exact validateMessage_error_rce m hv
    | ok _ =>
      rw [hv] at h
      exact ih h

/-- Every failure of `validateMessages` is a configuration error. -/
theorem validateMessages_error_rce (messages : List Message) {e : JsError}
    (h : validateMessages messages = .error e) : isRequestConfigError e = true := by
  unfold validateMessages at h
  split_ifs at h
  · cases h; rfl
  · exact validateMessagesAux_error_rce messages h

/-- Every failure of `validateModelConfig` is a configuration error. -/
theorem validateModelConfig_error_rce (cfg? : Option ModelConfig) {e : JsError}
    (h : validateModelConfig cfg? = .error e) : isRequestConfigError e = true := by
  unfold validateModelConfig at h
  cases cfg? with
  | none => cases h; rfl
  | some cfg =>
    dsimp only at h
    split_ifs at h <;> cases h <;> rfl

/-- Every failure of configuration resolution is a configuration error. -/
theorem getValidatedModelConfig_error_rce (mm : String → Option ModelConfig)
    (provider : String) (customConfig : Option PartialModelConfig)
    (validateFull : Bool) {e : JsError}
    (h : getValidatedModelConfig mm provider customConfig validateFull = .error e) :
    isRequestConfigError e = true := by
  unfold getValidatedModelConfig at h
  by_cases hp : provider = ""
  · rw [if_pos hp] at h; cases h; rfl
  · rw [if_neg hp] at h
    cases hm : resolveModelConfig mm provider customConfig with
    | none =>
      rw [hm] at h
      cases h; rfl
    | some cfg =>
      rw [hm] at h
      dsimp only at h
      cases validateFull with
      | true =>
        rw [if_pos (rfl : (true : Bool) = true)] at h
        cases hvv : validateModelConfig (some cfg) with
        | error e2 =>
          rw [hvv] at h
          cases h
          exact validateModelConfig_error_rce (some cfg) hvv
        | ok _ => rw [hvv] at h; exact Except.noConfusion h
      | false =>
        rw [if_neg Bool.false_ne_true] at h
        split_ifs at h <;> cases h <;> rfl

/-- An empty credential makes full validation fail. -/
theorem validateModelConfig_empty_key (cfg : ModelConfig) (hkey : cfg.apiKey = "") :
    ∃ m, validateModelConfig (some cfg) = .error (.requestConfigError m) := by
  unfold validateModelConfig
  dsimp only
  split_ifs with h1 <;> exact ⟨_, rfl⟩

/-- Configuration resolution cannot succeed on an empty credential. -/
theorem getValidatedModelConfig_empty_key_err (mm : String → Option ModelConfig)
    (provider : String) (cfg : ModelConfig)
    (hmm : mm provider = some cfg) (hkey : cfg.apiKey = "") :
    ∀ {c}, getValidatedModelConfig mm provider none true ≠ .ok c := by
  intro c h
  unfold getValidatedModelConfig at h
  by_cases hp : provider = ""
  · rw [if_pos hp] at h; exact Except.noConfusion h
  · rw [if_neg hp] at h
    have hres : resolveModelConfig mm provider none = some cfg := hmm
    rw [hres] at h
    dsimp only at h
    rw [if_pos (rfl : (true : Bool) = true)] at h
    obtain ⟨m, hv⟩ := validateModelConfig_empty_key cfg hkey
    rw [hv] at h
    exact Except.noConfusion h

/-- C8: an empty credential is rejected by `sendMessage` with a
configuration error before any provider adapter is constructed and
before any network call is performed. -/
theorem sendMessage_empty_apiKey_no_network (mm : String → Option ModelConfig)
    (messages : List Message) (provider : String)
    (vendorSend : List Message → Except String String) (cfg : ModelConfig)
    (hmm : mm provider = some cfg) (hkey : cfg.apiKey = "") :
    (∃ m, (sendMessage mm messages provider vendorSend).result =
      .error (.requestConfigError m)) ∧
    (sendMessage mm messages provider vendorSend).providersCreated = 0 ∧
    (sendMessage mm messages provider vendorSend).networkCalls = 0 := by
  unfold sendMessage
  cases hv : validateMessages messages with
  | error e =>
    obtain ⟨m, hm⟩ := isRequestConfigError_exists (validateMessages_error_rce messages hv)
    subst hm
    exact ⟨⟨m, rfl⟩, rfl, rfl⟩
  | ok _ =>
    cases hg : getValidatedModelConfig mm provider none true with
    | error e =>
      obtain ⟨m, hm⟩ :=
        isRequestConfigError_exists (getValidatedModelConfig_error_rce mm provider none true hg)
      subst hm
      exact ⟨⟨m, rfl⟩, rfl, rfl⟩
    | ok c =>
      exact absurd hg (getValidatedModelConfig_empty_key_err mm provider cfg hmm hkey)

/-- C8 witness: the statement instantiated on a concrete credential-less
configuration. -/
theorem sendMessage_empty_apiKey_no_network_witness :
    (∃ m, (sendMessage (fun _ => some cfgNoKeyDemo) msgsDemo "x"
        (fun _ => .ok "resp")).result = .error (.requestConfigError m)) ∧
    (sendMessage (fun _ => some cfgNoKeyDemo) msgsDemo "x"
        (fun _ => .ok "resp")).providersCreated = 0 ∧
    (sendMessage (fun _ => some cfgNoKeyDemo) msgsDemo "x"
        (fun _ => .ok "resp")).networkCalls = 0 :=
  sendMessage_empty_apiKey_no_network (fun _ => some cfgNoKeyDemo) msgsDemo "x"
    (fun _ => .ok "resp") cfgNoKeyDemo rfl rfl

/-- A list is a prefix of itself followed by anything. -/
theorem isPrefixOf_append_self (p t : Str) : p.isPrefixOf (p ++ t) = true := by
  induction p with
  | nil => simp [List.isPrefixOf]
  | cons a as ih => simp [List.isPrefixOf, ih]

/-- The scan cannot miss an occurrence of the pattern. -/
theorem firstMatchAux_ne_none_of_occ (pat : Str) :
    ∀ (rest : Str) (k i : Nat), pat.isPrefixOf (rest.drop k) = true →
      firstMatchAux pat rest i ≠ none := by
  intro rest
  induction rest with
  | nil =>
    intro k i h
    rw [List.drop_nil] at h
    unfold firstMatchAux
    rw [if_pos h]
    simp
  | cons a tl ih =>
    intro k i h
    unfold firstMatchAux
    by_cases hp : pat.isPrefixOf (a :: tl) = true
    · rw [if_pos hp]; simp
    · rw [if_neg hp]
      cases k with
      | zero => rw [List.drop_zero] at h; exact absurd h hp
      | succ k2 =>
        rw [List.drop_succ_cons] at h
        exact ih k2 (i + 1) h

/-- A successful scan yields an occurrence of the pattern. -/
theorem firstMatchAux_some_exists (pat : Str) :
    ∀ (rest : Str) (i j : Nat), firstMatchAux pat rest i = some j →
      ∃ k, pat.isPrefixOf (rest.drop k) = true := by
  intro rest
  induction rest with
  | nil =>
    intro i j h
    unfold firstMatchAux at h
    by_cases hp : pat.isPrefixOf ([] : Str) = true
    · exact ⟨0, hp⟩
    · rw [if_neg hp] at h
      simp at h
  | cons a tl ih =>
    intro i j h
    unfold firstMatchAux at h
    by_cases hp : pat.isPrefixOf (a :: tl) = true
    · exact ⟨0, hp⟩
    · rw [if_neg hp] at h
      obtain ⟨k, hk⟩ := ih (i + 1) j h
      exact ⟨k + 1, by rwa [List.drop_succ_cons]⟩

/-- A pattern placed at the front of the text is found at index zero. -/
theorem jsIndexOf_append_self (p t : Str) : jsIndexOf (p ++ t) p 0 = 0 := by
  unfold jsIndexOf
  dsimp only
  rw [show (0 : Int).toNat.min (p ++ t).length = 0 by simp]
  rw [List.drop_zero]
  unfold firstMatchAux
  rw [if_pos (isPrefixOf_append_self p t)]
  rfl

/-- A pattern placed at the front of the text is contained in it. -/
theorem jsIncludes_append_self (p t : Str) : jsIncludes (p ++ t) p = true := by
  unfold jsIncludes
  rw [jsIndexOf_append_self]
  rfl

/-- Containment unpacks to a disequality on the search result. -/
theorem jsIncludes_ne {t p : Str} (h : jsIncludes t p = true) :
    jsIndexOf t p 0 ≠ -1 := by
  unfold jsIncludes at h
  exact bne_iff_ne.mp h

/-- A text containing the pattern has an occurrence offset. -/
theorem jsIndexOf_found_occ {t pat : Str} (h : jsIndexOf t pat 0 ≠ -1) :
    ∃ k, pat.isPrefixOf (t.drop k) = true := by
  unfold jsIndexOf at h
  dsimp only at h
  rw [show (0 : Int).toNat.min t.length = 0 by simp] at h
  rw [List.drop_zero] at h
  cases hm : firstMatchAux pat t 0 with
  | none => rw [hm] at h; exact absurd rfl h
  | some j => exact firstMatchAux_some_exists pat t 0 j hm

/-- An occurrence in the suffix survives prefixing the text, searched from
the prefix boundary. -/
theorem jsIndexOf_shift_ne_neg_one {t pat : Str} (p : Str)
    (h : ∃ k, pat.isPrefixOf (t.drop k) = true) :
    jsIndexOf (p ++ t) pat (p.length : Int) ≠ -1 := by
  unfold jsIndexOf
  dsimp only
  have hstart : ((p.length : Int)).toNat.min (p ++ t).length = p.length := by
    simp only [Int.toNat_natCast, List.length_append]
    exact Nat.min_eq_left (Nat.le_add_right _ _)
  rw [hstart, List.drop_left]
  obtain ⟨k, hk⟩ := h
  cases hm : firstMatchAux pat t 0 with
  | none => exact absurd hm (firstMatchAux_ne_none_of_occ pat t k 0 hk)
  | some j =>
    dsimp only
    omega

/-- Head step of the marker search on a contained head marker. -/
theorem findFirstMarker_cons_pos {text m : Str} {ms : List Str}
    (h : jsIncludes text m = true) : findFirstMarker text (m :: ms) = some m := by
  unfold findFirstMarker
  rw [if_pos h]

/-- A found marker is a listed marker contained in the text. -/
theorem findFirstMarker_eq_some {text m : Str} :
    ∀ {ms : List Str}, findFirstMarker text ms = some m →
      m ∈ ms ∧ jsIncludes text m = true := by
  intro ms
  induction ms with
  | nil => intro h; simp [findFirstMarker] at h
  | cons a tl ih =>
    intro h
    unfold findFirstMarker at h
    by_cases hc : jsIncludes text a = true
    · rw [if_pos hc] at h
      cases h
      exact ⟨List.mem_cons_self _ _, hc⟩
    · rw [if_neg hc] at h
      obtain ⟨hmem, hinc⟩ := ih h
      exact ⟨List.mem_cons_of_mem a hmem, hinc⟩

/-- When no listed marker is contained, the search fails. -/
theorem findFirstMarker_eq_none {text : Str} :
    ∀ {ms : List Str}, (∀ m ∈ ms, jsIncludes text m = false) →
      findFirstMarker text ms = none := by
  intro ms
  induction ms with
  | nil => intro _; rfl
  | cons a tl ih =>
    intro h
    unfold findFirstMarker
    rw [if_neg (by simp [h a (List.mem_cons_self a tl)])]
    exact ih (fun m hm => h m (List.mem_cons_of_mem a hm))

/-- The positioned search succeeds when some listed marker occurs at or
after the position. -/
theorem findFirstMarkerAfter_ne_none {text : Str} {i : Int} :
    ∀ {ms : List Str}, (∃ m ∈ ms, jsIndexOf text m i ≠ -1) →
      findFirstMarkerAfter text i ms ≠ none := by
  intro ms
  induction ms with
  | nil =>
    intro h
    obtain ⟨m, hm, _⟩ := h
    exact absurd hm (List.not_mem_nil m)
  | cons a tl ih =>
    intro h
    unfold findFirstMarkerAfter
    by_cases hc : (jsIndexOf text a i != -1) = true
    · rw [if_pos hc]; simp
    · rw [if_neg hc]
      apply ih
      obtain ⟨m, hm, hne⟩ := h
      rcases List.mem_cons.mp hm with rfl | hmem
      · exact absurd (bne_iff_ne.mpr hne) hc
      · exact ⟨m, hmem, hne⟩

/-- The detected start marker is the first listed marker of the text. -/
theorem detectMarkers_start (text : Str) :
    (detectMarkers text).startMarker = findFirstMarker text thinkStartMarkers := rfl

/-- Without a start marker, the end marker is searched from the front. -/
theorem detectMarkers_end_of_none {text : Str}
    (h : findFirstMarker text thinkStartMarkers = none) :
    (detectMarkers text).endMarker = findFirstMarker text thinkEndMarkers := by
  unfold detectMarkers
  dsimp only
  rw [h]

/-- With a start marker, the end marker is searched after it. -/
theorem detectMarkers_end_of_some {text sm : Str}
    (h : findFirstMarker text thinkStartMarkers = some sm) :
    (detectMarkers text).endMarker =
      findFirstMarkerAfter text (jsIndexOf text sm 0 + (sm.length : Int)) thinkEndMarkers := by
  unfold detectMarkers
  dsimp only
  rw [h]

/-- Prefixing the synthetic opening tag to a text that contains some end
marker produces a text on which both markers are detected. -/
theorem detectMarkers_prepend_think {t em : Str}
    (hem : findFirstMarker t thinkEndMarkers = some em) :
    ∃ sm em2, (detectMarkers (s2l "<think>" ++ t)).startMarker = some sm ∧
      (detectMarkers (s2l "<think>" ++ t)).endMarker = some em2 := by
  have hstart : findFirstMarker (s2l "<think>" ++ t) thinkStartMarkers = some (s2l "<think>") :=
    findFirstMarker_cons_pos (jsIncludes_append_self (s2l "<think>") t)
  have hidx : jsIndexOf (s2l "<think>" ++ t) (s2l "<think>") 0 = 0 :=
    jsIndexOf_append_self (s2l "<think>") t
  obtain ⟨hmem, hinc⟩ := findFirstMarker_eq_some hem
  have hocc : ∃ k, em.isPrefixOf (t.drop k) = true :=
    jsIndexOf_found_occ (jsIncludes_ne hinc)
  have hshift : jsIndexOf (s2l "<think>" ++ t) em (((s2l "<think>").length : Int)) ≠ -1 :=
    jsIndexOf_shift_ne_neg_one (s2l "<think>") hocc
  have hafter : findFirstMarkerAfter (s2l "<think>" ++ t)
      (jsIndexOf (s2l "<think>" ++ t) (s2l "<think>") 0 + (((s2l "<think>").length : Int)))
      thinkEndMarkers ≠ none := by
    rw [hidx, zero_add]
    exact findFirstMarkerAfter_ne_none ⟨em, hmem, hshift⟩
  have hend := detectMarkers_end_of_some hstart
  cases he2 : findFirstMarkerAfter (s2l "<think>" ++ t)
      (jsIndexOf (s2l "<think>" ++ t) (s2l "<think>") 0 + (((s2l "<think>").length : Int)))
      thinkEndMarkers with
  | none => exact absurd he2 hafter
  | some em2 =>
    refine ⟨s2l "<think>", em2, ?_, ?_⟩
    · rw [detectMarkers_start]; exact hstart
    · rw [hend]; exact he2

/-- When both markers are detected, the extractor always reports a
thinking segment. -/
theorem extractThinkingAndAnswer_thinking_isSome {t sm em : Str}
    (hs : (detectMarkers t).startMarker = some sm)
    (he : (detectMarkers t).endMarker = some em) :
    (extractThinkingAndAnswer t).thinking.isSome = true := by
  unfold extractThinkingAndAnswer
  dsimp only
  rw [hs, he]
  dsimp only
  split <;> rfl

/-- C5 amended: on inputs whose trimmed form is non-empty and that
contain no recognised marker at all, `extract` passes the whole input
through as the answer with no thinking; blank inputs instead produce an
absent answer as well. -/
theorem extract_no_marker_passthrough (t : Str)
    (hblank : jsTrim t ≠ [])
    (hstart : ∀ m ∈ thinkStartMarkers, jsIncludes t m = false)
    (hend : ∀ m ∈ thinkEndMarkers, jsIncludes t m = false) :
    extract t = ⟨none, some t⟩ := by
  have hs : findFirstMarker t thinkStartMarkers = none := findFirstMarker_eq_none hstart
  have he : findFirstMarker t thinkEndMarkers = none := findFirstMarker_eq_none hend
  have hsm : (detectMarkers t).startMarker = none := by
    rw [detectMarkers_start]; exact hs
  have hem : (detectMarkers t).endMarker = none := by
    rw [detectMarkers_end_of_none hs]; exact he
  have hbody : extractBody t = .ok ⟨none, some t⟩ := by
    unfold extractBody
    dsimp only
    rw [hsm, hem]
  have htne : ¬(t = [] ∨ jsTrim t = []) := by
    rintro (rfl | h2)
    · exact hblank rfl
    · exact hblank h2
  unfold extract
  rw [if_neg htne, hbody]

/-- C5 amended, witness: the amended statement instantiated on a concrete
marker-free input. -/
theorem extract_no_marker_passthrough_witness :
    extract (s2l "hello world") = ⟨none, some (s2l "hello world")⟩ :=
  extract_no_marker_passthrough (s2l "hello world") (by decide) (by decide) (by decide)

/-- C10: whenever `extract` reports no thinking on an input whose trimmed
form is non-empty, the answer is exactly the original input, and on blank
input both fields are absent. -/
theorem extract_null_thinking_preserves_input (t : Str) :
    (jsTrim t = [] → extract t = ⟨none, none⟩) ∧
    (jsTrim t ≠ [] → (extract t).thinking = none → (extract t).answer = some t) := by
  constructor
  · intro h
    unfold extract
    rw [if_pos (Or.inr h)]
  · intro hblank
    have htne : ¬(t = [] ∨ jsTrim t = []) := by
      rintro (rfl | h2)
      · exact hblank rfl
      · exact hblank h2
    cases hs : (detectMarkers t).startMarker with
    | some sm =>
      have hbody : extractBody t = .ok (extractThinkingAndAnswer t) := by
        unfold extractBody
        dsimp only
        rw [hs]
      have hext : extract t = extractThinkingAndAnswer t := by
        unfold extract
        rw [if_neg htne, hbody]
      rw [hext]
      cases he : (detectMarkers t).endMarker with
      | some em =>
        intro hth
        have hisSome := extractThinkingAndAnswer_thinking_isSome hs he
        rw [hth] at hisSome
        simp at hisSome
      | none =>
        intro _
        unfold extractThinkingAndAnswer
        dsimp only
        rw [hs, he]
    | none =>
      cases he : (detectMarkers t).endMarker with
      | none =>
        intro _
        have hbody : extractBody t = .ok ⟨none, some t⟩ := by
          unfold extractBody
          dsimp only
          rw [hs, he]
        unfold extract
        rw [if_neg htne, hbody]
      | some em =>
        have hsm2 : findFirstMarker t thinkStartMarkers = none := by
          rw [← detectMarkers_start]; exact hs
        have hem : findFirstMarker t thinkEndMarkers = some em := by
          rw [← detectMarkers_end_of_none hsm2]; exact he
        obtain ⟨sm2, em2, hdm1, hdm2⟩ := detectMarkers_prepend_think hem
        have hbody : extractBody t = .ok (extractThinkingAndAnswer (s2l "<think>" ++ t)) := by
          unfold extractBody
          dsimp only
          rw [hs, he]
          dsimp only
          rw [show thinkStartMarkers.headD ([] : Str) = s2l "<think>" from rfl, hdm1]
        have hext : extract t = extractThinkingAndAnswer (s2l "<think>" ++ t) := by
          unfold extract
          rw [if_neg htne, hbody]
        rw [hext]
        intro hth
        have hisSome := extractThinkingAndAnswer_thinking_isSome hdm1 hdm2
        rw [hth] at hisSome
        simp at hisSome

/-- C10 witness: the invariant instantiated on a concrete marker-free
input. -/
theorem extract_null_thinking_preserves_input_witness :
    (extract (s2l "plain answer")).answer = some (s2l "plain answer") :=
  (extract_null_thinking_preserves_input (s2l "plain answer")).2 (by decide) (by decide)

end PromptAssistant
